import Mathlib

/-!
Shallow embedding of the minicast connection registry and broadcast relay
(src/pkg/websocket/manager.go, with the same logic duplicated in
src/cmd/server/main.go, and the channel-based HTTP variant in
src/unnamed/part_004).

Connections are identified by natural numbers; payloads are byte lists
(List Nat). The source slot is an Option Nat, the listener registry a
Finset Nat for its set algebra and, for broadcast iteration, a snapshot
list of listeners in an arbitrary order (Go map iteration order is
unspecified).
-/

namespace Minicast

/-- WebSocket message types as used by the code: gorilla/websocket
TextMessage, BinaryMessage, or a control frame type. -/
inductive MessageType where
| text
| binary
| control
deriving DecidableEq, Repr

/-- One outcome of a blocking conn.ReadMessage call: a message of some
type with a payload, or a read error (which includes orderly close). -/
inductive ReadEvent where
| msg (t : MessageType) (data : List Nat)
| err
deriving DecidableEq, Repr

/-- The check-and-set at the top of HandleSource (manager.go lines 44-52,
duplicated in cmd/server/main.go lines 66-74): under sourceMu, if
sourceConn is non-nil the attempt fails and the slot is unchanged,
otherwise the slot stores the new connection and the attempt succeeds.
Returns (acquired, slot after the attempt). -/
def tryAcquire (slot : Option Nat) (conn : Nat) : Bool × Option Nat :=
match slot with
| some c => (false, some c)
| none => (true, some conn)

/-- The deferred clear in HandleSource (manager.go lines 55-59, duplicated
in cmd/server/main.go lines 77-81): under sourceMu, sourceConn is set to
nil only if it still equals this connection. -/
def release (slot : Option Nat) (conn : Nat) : Option Nat :=
if slot = some conn then none else slot

/-- Result of the source read loop: the payloads passed to Broadcast, in
order, and whether the loop has exited (it exits only on a read error). -/
structure SourceLoopResult where
broadcasts : List (List Nat)
terminated : Bool
deriving DecidableEq, Repr

/-- The source read loop (manager.go lines 64-76): each iteration blocks
on ReadMessage; a read error breaks the loop; a BinaryMessage payload is
passed to Broadcast; any other message type is ignored and the loop
continues. The event list is the sequence of reads the connection yields;
events after the first error are unreachable. -/
def sourceLoop : List ReadEvent → SourceLoopResult
| [] => ⟨[], false⟩
| ReadEvent.err :: _ => ⟨[], true⟩
| ReadEvent.msg MessageType.binary d :: rest =>
    let r := sourceLoop rest
    ⟨d :: r.broadcasts, r.terminated⟩
| ReadEvent.msg _ _ :: rest => sourceLoop rest

/-- Observable outcome of HandleSource for one source-connect attempt. -/
structure SourceResult where
rejected : Bool
textsSentToConn : List String
broadcasts : List (List Nat)
slotAfter : Option Nat
connClosed : Bool
deriving DecidableEq, Repr

/-- HandleSource (manager.go lines 40-77, duplicated in
cmd/server/main.go lines 63-108): if the slot is occupied, the new
connection is sent the single text message, closed, and the handler
returns with the slot unchanged and nothing broadcast. Otherwise the slot
stores the connection and the read loop runs; when the loop exits (on a
read error) the deferred release clears the slot and closes the
connection. If the event list is exhausted without an error the handler
is still blocked inside ReadMessage: the slot still holds the connection
and nothing is closed yet. -/
def handleSource (slot : Option Nat) (conn : Nat) (events : List ReadEvent) :
    SourceResult :=
match tryAcquire slot conn with
| (false, s) =>
    { rejected := true
      textsSentToConn := ["Another source is already connected"]
      broadcasts := []
      slotAfter := s
      connClosed := true }
| (true, s) =>
    let r := sourceLoop events
    if r.terminated then
      { rejected := false
        textsSentToConn := []
        broadcasts := r.broadcasts
        slotAfter := release s conn
        connClosed := true }
    else
      { rejected := false
        textsSentToConn := []
        broadcasts := r.broadcasts
        slotAfter := s
        connClosed := false }

/-- A listener as seen by one Broadcast call: its connection identity and
whether WriteMessage to it returns an error for this frame. -/
structure Listener where
id : Nat
writeFails : Bool
deriving DecidableEq, Repr

/-- Observable outcome of one Broadcast call over a registry snapshot. -/
structure BroadcastResult where
attempts : List (Nat × List Nat)
delivered : List Nat
closedAndRemoved : List Nat
registryAfter : List Listener
deriving DecidableEq, Repr

/-- Broadcast (manager.go lines 107-121, duplicated inline in
cmd/server/main.go lines 95-106): iterate the registry; for each listener
call client.WriteMessage(BinaryMessage, data) with the payload passed
through unmodified; on error, close that client and delete it from the
map, then continue with the next listener. The snapshot list fixes one
iteration order of the Go map. -/
def broadcast (data : List Nat) : List Listener → BroadcastResult
| [] => ⟨[], [], [], []⟩
| l :: rest =>
    let r := broadcast data rest
    if l.writeFails then
      ⟨(l.id, data) :: r.attempts, r.delivered, l.id :: r.closedAndRemoved,
       r.registryAfter⟩
    else
      ⟨(l.id, data) :: r.attempts, l.id :: r.delivered, r.closedAndRemoved,
       l :: r.registryAfter⟩

/-- Register (manager.go lines 83-85): clients[conn] = true under the
lock; map-key insertion, i.e. set insertion. -/
def register (reg : Finset Nat) (conn : Nat) : Finset Nat :=
insert conn reg

/-- Unregister (manager.go lines 88-90 and line 117): delete(clients,
conn) under the lock; Go map delete of an absent key is a no-op. -/
def unregister (reg : Finset Nat) (conn : Nat) : Finset Nat :=
reg.erase conn

/-- The listener read loop (manager.go lines 96-104): blocks on
ReadMessage; a successfully received message is discarded and the loop
continues; only a read error breaks the loop. Returns whether the loop
has exited after the given reads. -/
def listenerLoopExits : List ReadEvent → Bool
| [] => false
| ReadEvent.err :: _ => true
| ReadEvent.msg _ _ :: rest => listenerLoopExits rest

/-- HandleListener (manager.go lines 79-105, duplicated in
cmd/server/main.go lines 110-137): register the connection, run the read
loop, and when (and only when) the loop exits, run the deferred
unregister and close. Returns the registry afterwards and whether the
connection was closed. -/
def handleListener (reg : Finset Nat) (conn : Nat) (events : List ReadEvent) :
    Finset Nat × Bool :=
let reg1 := register reg conn
if listenerLoopExits events then (unregister reg1 conn, true) else (reg1, false)

/-- State of one listener connection: whether its accept handler is
currently running, whether the handler has observed a read failure, and
whether the connection is in the registry. -/
structure ListenerState where
running : Bool
readFailed : Bool
inRegistry : Bool
deriving DecidableEq, Repr

/-- Atomic events in the life of one listener connection, as the code
performs them: connect is HandleListener entering and registering (lines
81-85); readError is the read loop observing an error and immediately
running its deferred unregister-and-close, terminating the handler (lines
87-104); bcastWriteFail is a concurrent Broadcast call observing a write
error to this connection and closing and removing it (lines 113-118)
while the handler is still blocked in ReadMessage. -/
inductive LEvent where
| connect
| readError
| bcastWriteFail
deriving DecidableEq, Repr

/-- The initial state of a connection: handler not started, not in the
registry. -/
def linit : ListenerState :=
⟨false, false, false⟩

/-- One step of the per-listener lifecycle, from the code paths named in
LEvent. -/
def lstep (s : ListenerState) : LEvent → ListenerState
| LEvent.connect => ⟨true, false, true⟩
| LEvent.readError => ⟨false, true, false⟩
| LEvent.bcastWriteFail => { s with inRegistry := false }

/-- The state after a sequence of lifecycle events, starting from linit. -/
def lrun (events : List LEvent) : ListenerState :=
events.foldl lstep linit

/-- Behaviour of one WriteMessage call in Broadcast for the websocket
manager: gorilla/websocket Conn.WriteMessage is a synchronous write and
the code sets no write deadline and uses no outbound queue, so the call
either returns success, returns an error, or blocks indefinitely on a
stalled peer whose TCP window is exhausted. -/
inductive WriteBehavior where
| ok
| fail
| stall
deriving DecidableEq, Repr

/-- A listener in the blocking-write model of Broadcast. -/
structure LConn where
id : Nat
write : WriteBehavior
deriving DecidableEq, Repr

/-- Outcome of a Broadcast call in the blocking-write model: which
listeners received the frame, which were closed and removed, and whether
the call returned (if a WriteMessage blocks forever, the loop never
reaches the remaining listeners and the source read loop that called
Broadcast never resumes). -/
structure BlockingResult where
delivered : List Nat
removed : List Nat
returned : Bool
deriving DecidableEq, Repr

/-- Broadcast (manager.go lines 107-121) with the per-listener write
modelled as the unbounded synchronous WriteMessage the code performs:
iteration proceeds past a listener only if its write returns. -/
def broadcastBlocking : List LConn → BlockingResult
| [] => ⟨[], [], true⟩
| l :: rest =>
    match l.write with
    | WriteBehavior.stall => ⟨[], [], false⟩
    | WriteBehavior.fail =>
        let r := broadcastBlocking rest
        ⟨r.delivered, l.id :: r.removed, r.returned⟩
    | WriteBehavior.ok =>
        let r := broadcastBlocking rest
        ⟨l.id :: r.delivered, r.removed, r.returned⟩

/-- A client channel in the HTTP variant (src/unnamed/part_004): its
identity and whether its buffered channel can accept the frame right now
(ready means the select's send case is immediately available). -/
structure Chan where
id : Nat
ready : Bool
deriving DecidableEq, Repr

/-- The fan-out of sourceHandler in src/unnamed/part_004 lines 135-141:
for each client channel, a select with a default case performs a
non-blocking send; a client that is not ready to receive is skipped and
the loop always proceeds to the next client. Returns the ids that
received the frame. -/
def sendToClients : List Chan → List Nat
| [] => []
| c :: rest =>
    if c.ready then c.id :: sendToClients rest else sendToClients rest

/-! Helper lemmas characterizing one Broadcast call over a snapshot. -/

/-- Every listener in the snapshot gets exactly one write attempt, in
iteration order, with the payload passed through unmodified. -/
theorem broadcast_attempts_eq (d : List Nat) (ls : List Listener) :
    (broadcast d ls).attempts = ls.map (fun l => (l.id, d)) := by
induction ls with
| nil => rfl
| cons l rest ih =>
    cases h : l.writeFails <;> simp [broadcast, h, ih]

/-- The listeners that receive the frame are exactly those whose write
succeeds. -/
theorem broadcast_delivered_eq (d : List Nat) (ls : List Listener) :
    (broadcast d ls).delivered =
      (ls.filter (fun l => !l.writeFails)).map Listener.id := by
induction ls with
| nil => rfl
| cons l rest ih =>
    cases h : l.writeFails <;> simp [broadcast, h, ih, List.filter_cons]

/-- The listeners closed and deleted are exactly those whose write
fails. -/
theorem broadcast_removed_eq (d : List Nat) (ls : List Listener) :
    (broadcast d ls).closedAndRemoved =
      (ls.filter (fun l => l.writeFails)).map Listener.id := by
induction ls with
| nil => rfl
| cons l rest ih =>
    cases h : l.writeFails <;> simp [broadcast, h, ih, List.filter_cons]

/-- The registry after the call keeps exactly the listeners whose write
succeeded. -/
theorem broadcast_after_eq (d : List Nat) (ls : List Listener) :
    (broadcast d ls).registryAfter = ls.filter (fun l => !l.writeFails) := by
induction ls with
| nil => rfl
| cons l rest ih =>
    cases h : l.writeFails <;> simp [broadcast, h, ih, List.filter_cons]

/-- C1: a source-connect attempt acquires the slot and stores the
connection iff the slot was empty; when occupied, the new connection is
sent exactly one text message "Another source is already connected" and
closed, the handler returns having broadcast nothing, and the previous
occupant stays in the slot unchanged. The slot is an Option, so it holds
at most one connection at any instant by construction. -/
theorem source_slot_exclusive (slot : Option Nat) (conn : Nat)
    (evs : List ReadEvent) :
    (tryAcquire slot conn).1 = slot.isNone ∧
    (slot = none → tryAcquire slot conn = (true, some conn)) ∧
    (∀ c, slot = some c →
      tryAcquire slot conn = (false, some c) ∧
      (handleSource slot conn evs).rejected = true ∧
      (handleSource slot conn evs).textsSentToConn =
        ["Another source is already connected"] ∧
      (handleSource slot conn evs).connClosed = true ∧
      (handleSource slot conn evs).broadcasts = [] ∧
      (handleSource slot conn evs).slotAfter = some c) := by
cases slot <;> simp [tryAcquire, handleSource]

/-- Witness for C1 at a concrete occupied slot. -/
theorem source_slot_exclusive_witness :
    (some 5 : Option Nat) = some 5 ∧
    (handleSource (some 5) 7 []).rejected = true := by
exact ⟨rfl, ((source_slot_exclusive (some 5) 7 []).2.2 5 rfl).2.1⟩

/-- C2: when no per-listener write fails, every listener in the snapshot
receives the frame, every write attempt carries exactly the payload the
source sent, and the registry is unchanged. -/
theorem broadcast_fanout_complete (d : List Nat) (ls : List Listener)
    (h : ∀ l ∈ ls, l.writeFails = false) :
    (broadcast d ls).delivered = ls.map Listener.id ∧
    (∀ p ∈ (broadcast d ls).attempts, p.2 = d) ∧
    (broadcast d ls).registryAfter = ls := by
have hf : ls.filter (fun l => !l.writeFails) = ls := by
  apply List.filter_eq_self.mpr
  intro l hl
  simp [h l hl]
refine ⟨?_, ?_, ?_⟩
· rw [broadcast_delivered_eq, hf]
· intro p hp
  rw [broadcast_attempts_eq] at hp
  obtain ⟨l, _, rfl⟩ := List.mem_map.mp hp
  rfl
· rw [broadcast_after_eq, hf]

/-- Witness for C2: two healthy listeners both receive the frame 0xAA
0xBB bit-for-bit. -/
theorem broadcast_fanout_complete_witness :
    (broadcast [170, 187] [⟨1, false⟩, ⟨2, false⟩]).delivered = [1, 2] ∧
    (∀ p ∈ (broadcast [170, 187] [⟨1, false⟩, ⟨2, false⟩]).attempts,
      p.2 = [170, 187]) := by
have h := broadcast_fanout_complete [170, 187] [⟨1, false⟩, ⟨2, false⟩]
  (by decide)
exact ⟨h.1, h.2.1⟩

/-- C3: if exactly one listener's write fails during a broadcast, that
listener and only that listener is closed and removed, while every other
listener in the snapshot is still attempted and receives the frame in
the same call. -/
theorem broadcast_isolates_failure (d : List Nat) (pre post : List Listener)
    (l : Listener) (hl : l.writeFails = true)
    (hpre : ∀ x ∈ pre, x.writeFails = false)
    (hpost : ∀ x ∈ post, x.writeFails = false) :
    (broadcast d (pre ++ l :: post)).closedAndRemoved = [l.id] ∧
    (broadcast d (pre ++ l :: post)).registryAfter = pre ++ post ∧
    (broadcast d (pre ++ l :: post)).attempts =
      (pre ++ l :: post).map (fun x => (x.id, d)) ∧
    (broadcast d (pre ++ l :: post)).delivered =
      (pre ++ post).map Listener.id := by
have hpre1 : pre.filter (fun x => !x.writeFails) = pre := by
  apply List.filter_eq_self.mpr
  intro x hx
  simp [hpre x hx]
have hpost1 : post.filter (fun x => !x.writeFails) = post := by
  apply List.filter_eq_self.mpr
  intro x hx
  simp [hpost x hx]
have hpre2 : pre.filter (fun x => x.writeFails) = [] := by
  apply List.filter_eq_nil_iff.mpr
  intro x hx
  simp [hpre x hx]
have hpost2 : post.filter (fun x => x.writeFails) = [] := by
  apply List.filter_eq_nil_iff.mpr
  intro x hx
  simp [hpost x hx]
refine ⟨?_, ?_, broadcast_attempts_eq d _, ?_⟩
· rw [broadcast_removed_eq]
  simp [List.filter_append, List.filter_cons, hl, hpre2, hpost2]
· rw [broadcast_after_eq]
  simp [List.filter_append, List.filter_cons, hl, hpre1, hpost1]
· rw [broadcast_delivered_eq]
  simp [List.filter_append, List.filter_cons, hl, hpre1, hpost1]

/-- Witness for C3: with listeners 1, 2, 3 and only listener 2 failing,
listener 2 alone is removed and listeners 1 and 3 still receive. -/
theorem broadcast_isolates_failure_witness :
    (broadcast [204] [⟨1, false⟩, ⟨2, true⟩, ⟨3, false⟩]).closedAndRemoved =
      [2] ∧
    (broadcast [204] [⟨1, false⟩, ⟨2, true⟩, ⟨3, false⟩]).delivered =
      [1, 3] := by
have h := broadcast_isolates_failure [204] [⟨1, false⟩] [⟨3, false⟩]
  ⟨2, true⟩ rfl (by decide) (by decide)
exact ⟨h.1, h.2.2.2⟩

/-- C5: releasing the slot clears it exactly when it currently holds the
releasing connection; a stale release, after a different connection holds
the slot, leaves the occupant unchanged. -/
theorem release_guards_stale (conn : Nat) :
    release (some conn) conn = none ∧
    (∀ c, c ≠ conn → release (some c) conn = some c) ∧
    release none conn = none := by
refine ⟨by simp [release], ?_, by simp [release]⟩
intro c hc
simp [release, hc]

/-- Witness for C5: a stale release by connection 7 does not evict the
newer source 9. -/
theorem release_guards_stale_witness :
    release (some 9) 7 = some 9 := by
exact (release_guards_stale 7).2.1 9 (by decide)

/-- C6: the source read loop passes exactly the binary payloads read
before the first error to the Broadcaster, unmodified and in order;
non-binary messages contribute nothing; the loop terminates exactly when
a read error occurs, and then (and only then) the handler releases the
slot and closes the transport. -/
theorem source_loop_forwards_binary (conn : Nat) (evs : List ReadEvent) :
    (sourceLoop evs).broadcasts =
      (evs.takeWhile (fun e => e ≠ ReadEvent.err)).filterMap
        (fun e =>
          match e with
          | ReadEvent.msg MessageType.binary d => some d
          | _ => none) ∧
    (sourceLoop evs).terminated = evs.contains ReadEvent.err ∧
    (handleSource none conn evs).broadcasts = (sourceLoop evs).broadcasts ∧
    (handleSource none conn evs).slotAfter =
      (if (sourceLoop evs).terminated then none else some conn) ∧
    (handleSource none conn evs).connClosed = (sourceLoop evs).terminated := by
refine ⟨?_, ?_, ?_, ?_, ?_⟩
· induction evs with
  | nil => rfl
  | cons e rest ih =>
      match e with
      | ReadEvent.err => simp [sourceLoop, List.takeWhile]
      | ReadEvent.msg MessageType.binary d =>
          simp [sourceLoop, List.takeWhile, ih]
      | ReadEvent.msg MessageType.text d =>
          simp [sourceLoop, List.takeWhile, ih]
      | ReadEvent.msg MessageType.control d =>
          simp [sourceLoop, List.takeWhile, ih]
· induction evs with
  | nil => rfl
  | cons e rest ih =>
      match e with
      | ReadEvent.err => simp [sourceLoop, List.contains_cons]
      | ReadEvent.msg MessageType.binary d =>
          simp [sourceLoop, List.contains_cons, ih]
      | ReadEvent.msg MessageType.text d =>
          simp [sourceLoop, List.contains_cons, ih]
      | ReadEvent.msg MessageType.control d =>
          simp [sourceLoop, List.contains_cons, ih]
· cases h : (sourceLoop evs).terminated <;>
    simp [handleSource, tryAcquire, h]
· cases h : (sourceLoop evs).terminated <;>
    simp [handleSource, tryAcquire, release, h]
· cases h : (sourceLoop evs).terminated <;>
    simp [handleSource, tryAcquire, h]

/-- C9: unregistration is idempotent: removing an absent connection is a
no-op, and unregistering the same connection twice leaves the registry
exactly as unregistering it once. -/
theorem unregister_idempotent (reg : Finset Nat) (conn : Nat) :
    unregister (unregister reg conn) conn = unregister reg conn ∧
    (conn ∉ reg → unregister reg conn = reg) := by
exact ⟨Finset.erase_idem, fun h => Finset.erase_eq_of_not_mem h⟩

/-- Witness for C9 on the registry containing connections 1 and 2:
removing the absent connection 3 is a no-op. -/
theorem unregister_idempotent_witness :
    3 ∉ ({1, 2} : Finset Nat) ∧ unregister {1, 2} 3 = {1, 2} := by
exact ⟨by decide, (unregister_idempotent {1, 2} 3).2 (by decide)⟩

/-- C10: a source-connect attempt made while the slot is occupied never
enters the read loop, so none of its messages are ever passed to the
Broadcaster, whatever it would have sent. -/
theorem rejected_source_never_broadcasts (slot : Option Nat) (c conn : Nat)
    (h : slot = some c) (evs : List ReadEvent) :
    (handleSource slot conn evs).broadcasts = [] ∧
    (handleSource slot conn evs).rejected = true := by
subst h
simp [handleSource, tryAcquire]

/-- Witness for C10: a rejected source that would have sent a binary
frame broadcasts nothing. -/
theorem rejected_source_never_broadcasts_witness :
    (handleSource (some 1) 2
      [ReadEvent.msg MessageType.binary [204], ReadEvent.err]).broadcasts =
      [] := by
exact (rejected_source_never_broadcasts (some 1) 1 2 rfl
  [ReadEvent.msg MessageType.binary [204], ReadEvent.err]).1

/-- C7 counterexample: after a listener connects and a broadcast write to
it fails, the Broadcast path has removed it from the registry while its
accept handler is still running (blocked in ReadMessage) and has not yet
observed a read failure — refuting the claimed "if and only if" at this
reachable state. -/
theorem registry_iff_running_counterexample :
    (lrun [LEvent.connect, LEvent.bcastWriteFail]).running = true ∧
    (lrun [LEvent.connect, LEvent.bcastWriteFail]).readFailed = false ∧
    (lrun [LEvent.connect, LEvent.bcastWriteFail]).inRegistry = false := by
decide

/-- C7 amended: the forward direction holds at every reachable state — a
connection present in the registry always has its accept handler running
and has not yet observed a read failure; the converse can fail after a
broadcast write failure removes a still-running listener. -/
theorem registry_implies_running (evs : List LEvent)
    (h : (lrun evs).inRegistry = true) :
    (lrun evs).running = true ∧ (lrun evs).readFailed = false := by
have key : ∀ l : List LEvent, ∀ s : ListenerState,
    (s.inRegistry = true → s.running = true ∧ s.readFailed = false) →
    ((l.foldl lstep s).inRegistry = true →
      (l.foldl lstep s).running = true ∧ (l.foldl lstep s).readFailed = false) := by
  intro l
  induction l with
  | nil => intro s hs; exact hs
  | cons e rest ih =>
      intro s hs
      apply ih
      cases e with
      | connect => intro _; exact ⟨rfl, rfl⟩
      | readError => intro hr; cases hr
      | bcastWriteFail => intro hr; cases hr
exact key evs linit (fun hr => by cases hr) h

/-- Witness for C7's amended invariant at the state just after a
connect. -/
theorem registry_implies_running_witness :
    (lrun [LEvent.connect]).inRegistry = true ∧
    (lrun [LEvent.connect]).running = true := by
exact ⟨by decide, (registry_implies_running [LEvent.connect] (by decide)).1⟩

/-- C8 counterexample: a successfully received message does not feed the
teardown path — after the listener reads one text message, its handler
has not exited, the connection is still registered, and the transport is
not closed. -/
theorem listener_msg_no_teardown_counterexample :
    listenerLoopExits [ReadEvent.msg MessageType.text []] = false ∧
    0 ∈ (handleListener ∅ 0 [ReadEvent.msg MessageType.text []]).1 ∧
    (handleListener ∅ 0 [ReadEvent.msg MessageType.text []]).2 = false := by
decide

/-- C8 amended: the listener read loop ignores successfully received
messages and continues; it exits exactly when a read error occurs, and
exactly then the handler unregisters the connection and closes the
transport. -/
theorem listener_teardown_on_error (reg : Finset Nat) (conn : Nat)
    (evs : List ReadEvent) :
    listenerLoopExits evs = evs.contains ReadEvent.err ∧
    (evs.contains ReadEvent.err = true →
      handleListener reg conn evs = (unregister (register reg conn) conn, true)) ∧
    (evs.contains ReadEvent.err = false →
      handleListener reg conn evs = (register reg conn, false)) := by
have hx : listenerLoopExits evs = evs.contains ReadEvent.err := by
  induction evs with
  | nil => rfl
  | cons e rest ih =>
      match e with
      | ReadEvent.err => simp [listenerLoopExits, List.contains_cons]
      | ReadEvent.msg t d => simp [listenerLoopExits, List.contains_cons, ih]
refine ⟨hx, ?_, ?_⟩
· intro h
  have hl : listenerLoopExits evs = true := hx.trans h
  simp [handleListener, hl]
· intro h
  have hl : listenerLoopExits evs = false := hx.trans h
  simp [handleListener, hl]

/-- Witness for C8's amended claim: a read error after one message tears
the listener down, removing it from the registry and closing it. -/
theorem listener_teardown_on_error_witness :
    handleListener ∅ 0 [ReadEvent.msg MessageType.text [], ReadEvent.err] =
      (unregister (register ∅ 0) 0, true) := by
exact (listener_teardown_on_error ∅ 0
  [ReadEvent.msg MessageType.text [], ReadEvent.err]).2.1 (by decide)

/-- C4 counterexample: in the websocket manager's Broadcast, the
per-listener WriteMessage is synchronous and unbounded (no deadline, no
outbound queue), so with listener 1 stalled and listener 2 healthy,
listener 2 never receives the frame and the Broadcast call — and with it
the source's read loop — never resumes. -/
theorem nonblocking_send_counterexample :
    2 ∉ (broadcastBlocking
      [⟨1, WriteBehavior.stall⟩, ⟨2, WriteBehavior.ok⟩]).delivered ∧
    (broadcastBlocking
      [⟨1, WriteBehavior.stall⟩, ⟨2, WriteBehavior.ok⟩]).returned = false := by
decide

/-- C4 amended: only the channel-based HTTP variant's fan-out is
non-blocking — every client whose buffered channel is ready receives the
frame regardless of any stalled client, and the sender always proceeds —
while the websocket manager's Broadcast returns (letting the source read
loop continue) exactly when no listener's write stalls. -/
theorem fanout_blocking_vs_channel (ls : List LConn) (cs : List Chan) :
    (broadcastBlocking ls).returned =
      ls.all (fun l => l.write != WriteBehavior.stall) ∧
    sendToClients cs = (cs.filter Chan.ready).map Chan.id := by
constructor
· induction ls with
  | nil => rfl
  | cons l rest ih =>
      match h : l.write with
      | WriteBehavior.stall => simp [broadcastBlocking, h]
      | WriteBehavior.ok => simp [broadcastBlocking, h, ih]
      | WriteBehavior.fail => simp [broadcastBlocking, h, ih]
· induction cs with
  | nil => rfl
  | cons c rest ih =>
      cases h : c.ready <;> simp [sendToClients, h, ih, List.filter_cons]

end Minicast
